import Mathlib

/-!
# Verification of the FoodTrendsPrediction data pipeline

Shallow embedding of `src/youtubedata.py`: the Searcher (`search_videos`),
the StatsFetcher (`get_video_stats`), the Transformer
(`clean_and_process_data`, with its helpers `iso_to_seconds` and the
`pd.cut` video-type binning) and the Aggregator (`aggregate_youtube_data`).

External services are modelled as oracles: the search endpoint is the
finite stream of responses the successive page requests would receive
(`List (Except Unit Page)`, an `error` being an `HttpError`), and the
video-details endpoint is a function from the comma-joined id string of a
batch to its response.  Numeric API fields are modelled by their values
(`Nat` counts, `ℚ` seconds); floating-point division is modelled exactly
over `ℚ` together with explicit `inf`/`nan` values where the source can
produce them.  Timezone normalisation and `age_days` (source lines
169-184, 202-203) are not modelled: no claim mentions them, and they
touch no field a claim depends on; `published_day` stands for the UTC
calendar date that the source derives from `published_at` and writes into
the `Date` column.
-/

/-- One item of a search-response page.  `videoId` is `item.id.get` of the
source (line 85): absent for channel/playlist matches. -/
structure SearchItem where
  videoId : Option String
  title : String
  publishedAt : String
  channelId : String
  deriving DecidableEq

/-- One page of search results: the `items` list and the optional
`nextPageToken` continuation token. -/
structure Page where
  items : List SearchItem
  nextPageToken : Option String
  deriving DecidableEq

/-- A row appended to `video_data` by `search_videos` (lines 86-92). -/
structure SearchResult where
  search_query : String
  video_id : String
  title : String
  published_at : String
  channel_id : String
  deriving DecidableEq

/-- Python truthiness of the continuation token in
`if not next_page_token or ...` (line 97): `None` and the empty string
are both falsy. -/
def tokenAbsent : Option String → Bool
  | none => true
  | some t => t == ""

/-- The rows one response page contributes to `video_data`
(lines 84-92): one per item whose `videoId` is present and truthy
(a present empty string fails the `if item.id.get("videoId")` test). -/
def pageResults (query : String) (p : Page) : List SearchResult :=
  p.items.filterMap fun it =>
    match it.videoId with
    | none => none
    | some vid =>
        if vid = "" then none
        else some ⟨query, vid, it.title, it.publishedAt, it.channelId⟩

/-- The `while True` pagination loop of `search_videos` (lines 66-98),
returning the collected rows together with the number of page requests
executed.  Each element of `responses` is the outcome of the next
`request.execute()`: an `HttpError` breaks the loop (lines 78-82);
otherwise the page rows are appended and the loop stops when the
continuation token is falsy or at least 500 rows have accumulated
(line 97).  An exhausted `responses` list ends the run: every theorem
below quantifies over all finite response streams. -/
def search_run (query : String) :
    List (Except Unit Page) → List SearchResult → List SearchResult × Nat
  | [], video_data => (video_data, 0)
  | resp :: rest, video_data =>
    match resp with
    | .error _ => (video_data, 1)
    | .ok page =>
        let video_data2 := video_data ++ pageResults query page
        if tokenAbsent page.nextPageToken = true ∨ 500 ≤ video_data2.length then
          (video_data2, 1)
        else
          let r := search_run query rest video_data2
          (r.1, r.2 + 1)

/-- `search_videos` (lines 49-101): the list returned after the
pagination loop, starting from an empty `video_data`. -/
def search_videos (query : String) (responses : List (Except Unit Page)) :
    List SearchResult :=
  (search_run query responses []).1

/-- One item of a video-details response (lines 133-150).  Fields read
with a defaulting `stats.get` keep their optionality; `id`, `title`,
`description` and `publishedAt` are modelled as present (every details
item carries them, and no claim depends on their absence). -/
structure StatsItem where
  id : String
  title : String
  description : String
  tags : Option (List String)
  publishedAt : String
  viewCount : Option Nat
  likeCount : Option Nat
  commentCount : Option Nat
  duration : Option String
  deriving DecidableEq

/-- A row of `full_stats` (lines 138-150). -/
structure FullStat where
  video_id : String
  title : String
  description : String
  tags : String
  published_at : String
  view_count : Nat
  like_count : Nat
  comment_count : Nat
  duration_iso : Option String
  scrape_date : String
  deriving DecidableEq

/-- Builds one `full_stats` row from a response item (lines 138-150):
tags joined with a bar, missing numeric statistics defaulting to 0,
`scrape_date` stamped with the current clock value `now`. -/
def toFullStat (now : String) (item : StatsItem) : FullStat :=
  { video_id := item.id
    title := item.title
    description := item.description
    tags := String.intercalate "|" (item.tags.getD [])
    published_at := item.publishedAt
    view_count := item.viewCount.getD 0
    like_count := item.likeCount.getD 0
    comment_count := item.commentCount.getD 0
    duration_iso := item.duration
    scrape_date := now }

/-- The consecutive batches `video_ids[i:i+50]` visited by the loop
`for i in range(0, len(video_ids), 50)` (lines 117-118). -/
def chunks50 : List String → List (List String)
  | [] => []
  | x :: xs => ((x :: xs).take 50) :: chunks50 ((x :: xs).drop 50)
termination_by ids => ids.length
decreasing_by
  simp only [List.length_drop, List.length_cons]
  omega

/-- `get_video_stats` (lines 105-153): batches of at most 50 ids,
comma-joined into one request; a failed batch is skipped (`continue`,
lines 127-131) and the remaining batches still processed. -/
def get_video_stats (now : String)
    (oracle : String → Except Unit (List StatsItem)) :
    List String → List FullStat
  | [] => []
  | x :: xs =>
    (match oracle (String.intercalate "," ((x :: xs).take 50)) with
      | .error _ => []
      | .ok items => items.map (toFullStat now)) ++
      get_video_stats now oracle ((x :: xs).drop 50)
termination_by ids => ids.length
decreasing_by
  simp only [List.length_drop, List.length_cons]
  omega

/-- Splits a character list at the first non-digit: the leading digit run
and the remainder. -/
def takeDigits : List Char → List Char × List Char
  | [] => ([], [])
  | c :: cs =>
      if c.isDigit then
        let r := takeDigits cs
        (c :: r.1, r.2)
      else ([], c :: cs)

/-- Value of a digit run read in base 10. -/
def digitsToNat (ds : List Char) : Nat :=
  ds.foldl (fun n c => 10 * n + (c.toNat - 48)) 0

/-- Parses the regex fragment `[0-9]+([,.][0-9]+)?` of the ISO-8601
period grammar: a decimal number whose optional fractional part may be
separated by a dot or a comma.  Returns the value and the rest, or
`none` when no such number starts the input. -/
def parseNumber (s : List Char) : Option (ℚ × List Char) :=
  let intPart := takeDigits s
  if intPart.1 = [] then none
  else
    match intPart.2 with
    | c :: r2 =>
        if c = '.' ∨ c = ',' then
          let fracPart := takeDigits r2
          if fracPart.1 = [] then none
          else some
            ((digitsToNat intPart.1 : ℚ) +
              (digitsToNat fracPart.1 : ℚ) / ((10 : ℚ) ^ fracPart.1.length),
             fracPart.2)
        else some ((digitsToNat intPart.1 : ℚ), c :: r2)
    | [] => some ((digitsToNat intPart.1 : ℚ), [])

/-- Parses one optional period component `(number desig)?`: when the
input starts with a number immediately followed by the designator
letter, both are consumed; otherwise the component is absent with
value 0, consuming nothing. -/
def parseComp (desig : Char) (s : List Char) : ℚ × List Char :=
  match parseNumber s with
  | none => (0, s)
  | some (q, r) =>
      match r with
      | c :: r2 => if c = desig then (q, r2) else (0, s)
      | [] => (0, s)

/-- Word character, for the `(?!\b)` lookahead after `P` in the isodate
period regex. -/
def isWordChar (c : Char) : Bool :=
  c.isAlphanum || c = '_'

/-- The isodate duration parser (`isodate.parse_duration`) on the
ISO-8601 period grammar
`^[+-]?P(?!\b)(yY)?(mM)?(wW)?(dD)?(T(hH)?(mM)?(sS)?)?$`, returning
`.total_seconds()` of the result as an exact rational, or `none` where
the library raises (caught by `iso_to_seconds`).  Years and months are
accepted by the grammar but contribute 0 seconds: for a nonzero year or
month component isodate builds a `Duration` object whose
`total_seconds` delegates to its internal day-time `timedelta`.  The
alternative `PYYYY-MM-DDThh:mm:ss` datetime form isodate also accepts
is not modelled: the platform never emits it and no claim exercises
it. -/
def parseDuration (s : String) : Option ℚ :=
  let signSplit : Bool × List Char :=
    match s.data with
    | '-' :: r => (true, r)
    | '+' :: r => (false, r)
    | r => (false, r)
  match signSplit.2 with
  | 'P' :: c :: r =>
      if isWordChar c then
        let y := parseComp 'Y' (c :: r)
        let mo := parseComp 'M' y.2
        let w := parseComp 'W' mo.2
        let d := parseComp 'D' w.2
        let timePart : Option ℚ :=
          match d.2 with
          | [] => some 0
          | 'T' :: r5 =>
              let hh := parseComp 'H' r5
              let mm := parseComp 'M' hh.2
              let ss := parseComp 'S' mm.2
              if ss.2 = [] then some (3600 * hh.1 + 60 * mm.1 + ss.1) else none
          | _ => none
        match timePart with
        | none => none
        | some t =>
            let total := 604800 * w.1 + 86400 * d.1 + t
            some (if signSplit.1 then -total else total)
      else none
  | _ => none

/-- `iso_to_seconds` (lines 187-192): converts an ISO-8601 duration
string to total seconds; the bare `except` returns `None` both for a
missing duration (`None` is not a string, a `TypeError`) and for a
string the parser rejects. -/
def iso_to_seconds (duration : Option String) : Option ℚ :=
  match duration with
  | none => none
  | some s => parseDuration s

/-- An IEEE-754 value as produced by the engagement-rate division:
either an exact (rational) finite value, or positive infinity, or
not-a-number.  The counts are naturals, so negative infinity cannot
arise. -/
inductive FloatVal where
  | fin : ℚ → FloatVal
  | inf : FloatVal
  | nan : FloatVal
  deriving DecidableEq

/-- Float division of the engagement numerator by the view count
(line 199): a zero divisor gives `nan` on a zero numerator and `inf`
otherwise; finite quotients are modelled exactly over `ℚ`. -/
def floatDiv (num : ℚ) (den : ℚ) : FloatVal :=
  if den = 0 then (if num = 0 then .nan else .inf) else .fin (num / den)

/-- `.replace({float("inf"): 0, float("nan"): 0})` (line 200). -/
def replaceInfNan : FloatVal → ℚ
  | .fin q => q
  | .inf => 0
  | .nan => 0

/-- The `engagement_rate` column (lines 199-200): the division followed
by the replacement of non-finite values by 0. -/
def engagement_rate (like_count comment_count view_count : Nat) : ℚ :=
  replaceInfNan (floatDiv ((like_count : ℚ) + (comment_count : ℚ)) (view_count : ℚ))

/-- `TREND_MAPPING` (lines 165-167): each query mapped to itself with
spaces replaced by hyphens. -/
def TREND_MAPPING (trend_queries : List String) : List (String × String) :=
  trend_queries.map fun q => (q, q.replace " " "-")

/-- `df["search_query"].map(TREND_MAPPING).fillna("other")` (line 222):
lookup in the mapping, defaulting to `"other"` for an unmapped query. -/
def trendLookup (trend_queries : List String) (q : String) : String :=
  ((TREND_MAPPING trend_queries).lookup q).getD "other"

/-- The labels of the `pd.cut` video-type binning (line 208). -/
inductive VideoType where
  | Short : VideoType
  | Longer_Video : VideoType
  deriving DecidableEq

/-- `df["duration_seconds"].max()` (line 207): pandas `max` skips null
entries and is null on an all-null column. -/
def colMax (col : List (Option ℚ)) : Option ℚ :=
  match col.filterMap id with
  | [] => none
  | x :: xs => some (xs.foldl max x)

/-- The video-type binning `pd.cut(durations, bins=[0, 60, max + 1],
labels=["Short", "Longer_Video"], right=False)` (lines 206-210).
With `right=False` the bins are `[0, 60)` and `[60, max + 1)`; a null
duration and a value outside the bins yield the null category.  The
call raises — modelled as `.error` — unless the column maximum `m`
exists and `60 < m + 1`: when `m + 1 < 60` the edges are not
monotonically increasing and when `m + 1 = 60` they are not unique
(`ValueError` either way); and on an all-null column the maximum is
NaN, so the edge list `[0, 60, nan]` is not monotonically increasing
(`ValueError` in pandas 2.x) and in pandas 1.x the `searchsorted` over
the object-dtype column of `None` raises a `TypeError` — every pandas
version raises there too. -/
def cutVideoType (durations : List (Option ℚ)) : Except Unit (List (Option VideoType)) :=
  match colMax durations with
  | none => .error ()
  | some m =>
      if m + 1 ≤ 60 then .error ()
      else .ok (durations.map fun dOpt =>
        match dOpt with
        | none => none
        | some d =>
            if 0 ≤ d ∧ d < 60 then some .Short
            else if 60 ≤ d ∧ d < m + 1 then some .Longer_Video
            else none)

/-- A row of the raw combined frame handed to `clean_and_process_data`
(lines 305-322): the `full_stats` fields together with the
`search_query` label added by the driver (line 308).  `published_day`
is the UTC calendar date of `published_at`, the value the source writes
into the `Date` column (lines 172-184, 225-227); fields no claim reads
(`description`, `tags`, `scrape_date`) are omitted. -/
structure RawRecord where
  video_id : String
  title : String
  view_count : Nat
  like_count : Nat
  comment_count : Nat
  duration_iso : Option String
  search_query : String
  published_day : String
  deriving DecidableEq

/-- A row of the frame returned by `clean_and_process_data`
(lines 157-230). -/
structure EnrichedRecord where
  video_id : String
  title : String
  view_count : Nat
  like_count : Nat
  comment_count : Nat
  duration_seconds : Option ℚ
  engagement_rate : ℚ
  video_type : Option VideoType
  title_length : Nat
  Trend_ID : String
  Date : String
  search_query : String
  deriving DecidableEq

/-- The per-row part of `clean_and_process_data`: derived columns
`duration_seconds` (line 194), `engagement_rate` (lines 199-200),
`title_length` (line 213), `Trend_ID` (line 222) and the renamed,
date-formatted `Date` column (lines 225-227); `vt` is the row entry of
the `video_type` column (lines 206-210). -/
def enrichRow (trend_queries : List String) (r : RawRecord) (vt : Option VideoType) :
    EnrichedRecord :=
  { video_id := r.video_id
    title := r.title
    view_count := r.view_count
    like_count := r.like_count
    comment_count := r.comment_count
    duration_seconds := iso_to_seconds r.duration_iso
    engagement_rate := engagement_rate r.like_count r.comment_count r.view_count
    video_type := vt
    title_length := r.title.length
    Trend_ID := trendLookup trend_queries r.search_query
    Date := r.published_day
    search_query := r.search_query }

/-- `clean_and_process_data` (lines 157-230), parameterised by the
`TREND_QUERIES` global it reads (line 166).  The only failing step is
the video-type binning (lines 206-210); an uncaught `ValueError` there
aborts the transformation, modelled as `.error`. -/
def clean_and_process_data (trend_queries : List String) (records : List RawRecord) :
    Except Unit (List EnrichedRecord) :=
  match cutVideoType (records.map fun r => iso_to_seconds r.duration_iso) with
  | .error e => .error e
  | .ok vts => .ok (List.zipWith (enrichRow trend_queries) records vts)

/-- A row of the aggregated frame (lines 244-256), after the rename of
the `video_id` count to `daily_video_count`. -/
structure DailyAggregate where
  Trend_ID : String
  Date : String
  daily_video_count : Nat
  view_count : Nat
  like_count : Nat
  comment_count : Nat
  engagement_rate : ℚ
  duration_seconds : Option ℚ
  title_length : ℚ
  deriving DecidableEq

/-- The groupby key `(Trend_ID, Date)` (line 255). -/
def aggKey (r : EnrichedRecord) : String × String :=
  (r.Trend_ID, r.Date)

/-- The aggregated row of one `(Trend_ID, Date)` group (lines 244-256):
`count` of the (never null) `video_id` column, sums of the count
columns, means of `engagement_rate` and `title_length`, and the mean of
the non-null `duration_seconds` entries (pandas `mean` skips nulls and
is null when the whole group is null). -/
def aggRow (records : List EnrichedRecord) (k : String × String) : DailyAggregate :=
  let g := records.filter fun r => decide (aggKey r = k)
  { Trend_ID := k.1
    Date := k.2
    daily_video_count := g.length
    view_count := (g.map EnrichedRecord.view_count).sum
    like_count := (g.map EnrichedRecord.like_count).sum
    comment_count := (g.map EnrichedRecord.comment_count).sum
    engagement_rate := (g.map EnrichedRecord.engagement_rate).sum / (g.length : ℚ)
    duration_seconds :=
      match g.filterMap EnrichedRecord.duration_seconds with
      | [] => none
      | ds => some (ds.sum / (ds.length : ℚ))
    title_length := ((g.map EnrichedRecord.title_length).sum : ℚ) / (g.length : ℚ) }

/-- `aggregate_youtube_data` (lines 234-259): one output row per
distinct `(Trend_ID, Date)` key occurring in the input.  Pandas emits
the groups sorted by key where this embedding keeps first-occurrence
order; no claim concerns row order. -/
def aggregate_youtube_data (records : List EnrichedRecord) : List DailyAggregate :=
  ((records.map aggKey).dedup).map (aggRow records)

deriving instance DecidableEq for Except

/-! ## Lemmas about the Searcher loop -/

/-- Unfolding of one successful loop iteration of `search_run`. -/
theorem search_run_ok (q : String) (p : Page) (rest : List (Except Unit Page))
    (acc : List SearchResult) :
    search_run q (.ok p :: rest) acc =
      if tokenAbsent p.nextPageToken = true ∨ 500 ≤ (acc ++ pageResults q p).length then
        (acc ++ pageResults q p, 1)
      else
        ((search_run q rest (acc ++ pageResults q p)).1,
          (search_run q rest (acc ++ pageResults q p)).2 + 1) := rfl

/-- A page-request failure ends the run at once with the rows collected
so far, and the rows collected up to a failure are exactly the rows the
loop would have collected from the responses preceding it. -/
theorem search_run_until_error (q : String) (before rest : List (Except Unit Page))
    (acc : List SearchResult) :
    (search_run q (before ++ .error () :: rest) acc).1 = (search_run q before acc).1 := by
  induction before generalizing acc with
  | nil => rfl
  | cons r before ih =>
    cases r with
    | error e => rfl
    | ok p =>
      rw [List.cons_append, search_run_ok, search_run_ok]
      split
      · rfl
      · exact ih _

/-- Loop invariant for the length bound: entering an iteration with
fewer than 500 rows, the run ends with at most `499 + m` rows when
every page holds at most `m` items. -/
theorem search_run_length_le (q : String) (m : Nat)
    (responses : List (Except Unit Page)) (acc : List SearchResult)
    (hacc : acc.length ≤ 499)
    (hm : ∀ p : Page, Except.ok p ∈ responses → p.items.length ≤ m) :
    (search_run q responses acc).1.length ≤ 499 + m := by
  induction responses generalizing acc with
  | nil =>
    show acc.length ≤ 499 + m
    omega
  | cons r rest ih =>
    cases r with
    | error e =>
      show acc.length ≤ 499 + m
      omega
    | ok p =>
      have hp : (pageResults q p).length ≤ m :=
        le_trans (List.length_filterMap_le _ _) (hm p (by simp))
      rw [search_run_ok]
      split
      · simp only [List.length_append]
        omega
      · rename_i hstop
        have hlt : (acc ++ pageResults q p).length ≤ 499 := by
          rcases not_or.mp hstop with ⟨-, h2⟩
          omega
        exact ih _ hlt (fun p2 hp2 => hm p2 (List.mem_cons_of_mem _ hp2))

/-- C1: once the page just appended brings the accumulated row count to
at least 500, or its continuation token is absent, the loop returns at
once — exactly one request is executed from that state, whatever
further pages and tokens `rest` would offer. -/
theorem search_videos_stops_at_cap_or_token_end (q : String) (p : Page)
    (rest : List (Except Unit Page)) (acc : List SearchResult)
    (h : tokenAbsent p.nextPageToken = true ∨ 500 ≤ (acc ++ pageResults q p).length) :
    search_run q (.ok p :: rest) acc = (acc ++ pageResults q p, 1) := by
  rw [search_run_ok, if_pos h]

theorem search_videos_stops_witness :
    (tokenAbsent (Page.mk [SearchItem.mk (some "v1") "t" "d" "c"] none).nextPageToken = true ∨
      500 ≤ (([] : List SearchResult) ++
        pageResults "q" (Page.mk [SearchItem.mk (some "v1") "t" "d" "c"] none)).length)
    ∧ search_run "q"
        [.ok (Page.mk [SearchItem.mk (some "v1") "t" "d" "c"] none),
         .ok (Page.mk [] (some "tok"))] []
        = (([] : List SearchResult) ++
            pageResults "q" (Page.mk [SearchItem.mk (some "v1") "t" "d" "c"] none), 1) :=
  ⟨Or.inl rfl,
    search_videos_stops_at_cap_or_token_end "q"
      (Page.mk [SearchItem.mk (some "v1") "t" "d" "c"] none)
      [.ok (Page.mk [] (some "tok"))] [] (Or.inl rfl)⟩

/-- C9: a page-request failure abandons pagination without retry — one
request from that state, the collected rows returned unchanged — and a
run whose responses fail at some position returns exactly the rows the
loop collects from the earlier responses. -/
theorem search_abandons_on_page_failure (q : String)
    (before rest : List (Except Unit Page)) (acc : List SearchResult) :
    search_run q (.error () :: rest) acc = (acc, 1)
    ∧ (search_run q (before ++ .error () :: rest) acc).1 = (search_run q before acc).1
    ∧ search_videos q (before ++ .error () :: rest) = search_videos q before :=
  ⟨rfl, search_run_until_error q before rest acc, search_run_until_error q before rest []⟩

/-- C10: when every response page carries at most `m` items (the page
size `max_results` is an upper bound the endpoint honours), the
returned list has at most `499 + m` entries: the cap is tested only
after a whole page is appended, so the result can exceed 500 by at most
one page. -/
theorem search_videos_length_bound (q : String) (m : Nat)
    (responses : List (Except Unit Page))
    (hm : ∀ p : Page, Except.ok p ∈ responses → p.items.length ≤ m) :
    (search_videos q responses).length ≤ 499 + m
    ∧ (m = 50 → (search_videos q responses).length ≤ 549) := by
  have h : (search_videos q responses).length ≤ 499 + m :=
    search_run_length_le q m responses [] (by simp) hm
  exact ⟨h, fun h50 => by omega⟩

theorem search_videos_length_bound_witness :
    (∀ p : Page, (Except.ok p : Except Unit Page) ∈
        [Except.ok (Page.mk [SearchItem.mk (some "v1") "t" "d" "c"] none)] →
      p.items.length ≤ 50)
    ∧ (search_videos "q" [Except.ok (Page.mk [SearchItem.mk (some "v1") "t" "d" "c"] none)]).length
        ≤ 549 :=
  ⟨fun p hp => by
      simp only [List.mem_singleton, Except.ok.injEq] at hp
      subst hp
      decide,
    (search_videos_length_bound "q" 50
      [Except.ok (Page.mk [SearchItem.mk (some "v1") "t" "d" "c"] none)]
      (fun p hp => by
        simp only [List.mem_singleton, Except.ok.injEq] at hp
        subst hp
        decide)).2 rfl⟩

/-! ## Lemmas about the StatsFetcher -/

/-- `get_video_stats` is the concatenation, over the consecutive
batches, of the rows of each successful response — a failed batch
contributing nothing and the later batches still processed. -/
theorem get_video_stats_eq_flatMap (now : String)
    (oracle : String → Except Unit (List StatsItem)) (ids : List String) :
    get_video_stats now oracle ids =
      (chunks50 ids).flatMap fun b =>
        match oracle (String.intercalate "," b) with
        | .error _ => []
        | .ok items => items.map (toFullStat now) := by
  induction ids using chunks50.induct with
  | case1 => simp [get_video_stats, chunks50]
  | case2 x xs ih =>
    rw [get_video_stats, chunks50, List.flatMap_cons, ← ih]

/-- Every batch holds at most 50 identifiers. -/
theorem chunks50_length_le (ids : List String) :
    ∀ b ∈ chunks50 ids, b.length ≤ 50 := by
  induction ids using chunks50.induct with
  | case1 =>
    intro b hb
    rw [chunks50] at hb
    cases hb
  | case2 x xs ih =>
    intro b hb
    rw [chunks50] at hb
    rcases List.mem_cons.mp hb with h | h
    · subst h
      simp
    · exact ih b h

/-- The batches are consecutive slices: concatenated they give back the
identifier list. -/
theorem chunks50_flatten (ids : List String) :
    (chunks50 ids).flatten = ids := by
  induction ids using chunks50.induct with
  | case1 => rw [chunks50]; rfl
  | case2 x xs ih =>
    rw [chunks50, List.flatten_cons, ih, List.take_append_drop]

/-- C8: `get_video_stats` splits its input into consecutive batches of
at most 50 identifiers, requests each batch independently (one request
per comma-joined batch), and concatenates the rows of the successful
responses: a failed batch contributes nothing — no retry — while the
batches before and after it still contribute their rows. -/
theorem get_video_stats_chunks_and_isolation (now : String)
    (oracle : String → Except Unit (List StatsItem)) (ids : List String) :
    get_video_stats now oracle ids =
      ((chunks50 ids).flatMap fun b =>
        match oracle (String.intercalate "," b) with
        | .error _ => []
        | .ok items => items.map (toFullStat now))
    ∧ (∀ b ∈ chunks50 ids, b.length ≤ 50)
    ∧ (chunks50 ids).flatten = ids :=
  ⟨get_video_stats_eq_flatMap now oracle ids, chunks50_length_le ids, chunks50_flatten ids⟩

/-- C2 counterexample: the identifier `"a"` is returned on two
consecutive pages and appears twice in the Searcher output — the output
is not deduplicated. -/
theorem searcher_output_not_deduplicated :
    ¬ ((search_videos "q"
        [.ok (Page.mk [SearchItem.mk (some "a") "t1" "p1" "c1"] (some "tok")),
         .ok (Page.mk [SearchItem.mk (some "a") "t2" "p2" "c2"] none)]).map
          SearchResult.video_id).Nodup := by
  decide

/-- C2 amended: neither stage deduplicates.  A two-page search run
returns the concatenation of the rows of both pages, an identifier
returned on several pages appearing several times; and
`get_video_stats` emits one record per item of each successful batch
response — one per unique input identifier only when the responses
together mention each identifier once. -/
theorem pipeline_keeps_duplicate_ids (q : String) (p1 p2 : Page)
    (h1 : tokenAbsent p1.nextPageToken = false)
    (h2 : (pageResults q p1).length < 500) :
    search_videos q [.ok p1, .ok p2] = pageResults q p1 ++ pageResults q p2
    ∧ ∀ (now : String) (oracle : String → Except Unit (List StatsItem)) (ids : List String),
        (get_video_stats now oracle ids).map FullStat.video_id =
          (chunks50 ids).flatMap fun b =>
            match oracle (String.intercalate "," b) with
            | .error _ => []
            | .ok items => items.map StatsItem.id := by
  constructor
  · show (search_run q [.ok p1, .ok p2] []).1 = _
    rw [search_run_ok, if_neg]
    · rw [search_run_ok]
      split
      · simp
      · simp [search_run]
    · rw [not_or, h1]
      exact ⟨by simp, by simpa using not_le.mpr h2⟩
  · intro now oracle ids
    rw [get_video_stats_eq_flatMap, List.map_flatMap]
    refine List.flatMap_congr ?_  -- pointwise equality of the inner maps
    intro b _
    cases oracle (String.intercalate "," b) with
    | error e => rfl
    | ok items => simp [toFullStat]

theorem pipeline_keeps_duplicate_ids_witness :
    tokenAbsent (Page.mk [SearchItem.mk (some "a") "t1" "p1" "c1"] (some "tok")).nextPageToken
        = false
    ∧ (pageResults "q" (Page.mk [SearchItem.mk (some "a") "t1" "p1" "c1"] (some "tok"))).length
        < 500
    ∧ search_videos "q"
        [.ok (Page.mk [SearchItem.mk (some "a") "t1" "p1" "c1"] (some "tok")),
         .ok (Page.mk [SearchItem.mk (some "a") "t2" "p2" "c2"] none)]
      = pageResults "q" (Page.mk [SearchItem.mk (some "a") "t1" "p1" "c1"] (some "tok"))
        ++ pageResults "q" (Page.mk [SearchItem.mk (some "a") "t2" "p2" "c2"] none) :=
  ⟨by decide, by decide,
    (pipeline_keeps_duplicate_ids "q"
      (Page.mk [SearchItem.mk (some "a") "t1" "p1" "c1"] (some "tok"))
      (Page.mk [SearchItem.mk (some "a") "t2" "p2" "c2"] none)
      (by decide) (by decide)).1⟩

/-! ## Lemmas about the Transformer -/

/-- A successful binning preserves the number of rows. -/
theorem cutVideoType_length {ds : List (Option ℚ)} {vts : List (Option VideoType)}
    (h : cutVideoType ds = .ok vts) : vts.length = ds.length := by
  unfold cutVideoType at h
  cases hm : colMax ds with
  | none =>
    rw [hm] at h
    cases h
  | some m =>
    rw [hm] at h
    dsimp only at h
    by_cases hle : m + 1 ≤ 60
    · rw [if_pos hle] at h
      cases h
    · rw [if_neg hle] at h
      cases h
      simp

/-- A successful binning sends a null duration to the null category. -/
theorem cutVideoType_null {ds : List (Option ℚ)} {vts : List (Option VideoType)}
    (h : cutVideoType ds = .ok vts)
    (i : Nat) (hi : i < ds.length) (hv : i < vts.length) (hnull : ds[i] = none) :
    vts[i] = none := by
  unfold cutVideoType at h
  cases hm : colMax ds with
  | none =>
    rw [hm] at h
    cases h
  | some m =>
    rw [hm] at h
    dsimp only at h
    by_cases hle : m + 1 ≤ 60
    · rw [if_pos hle] at h
      cases h
    · rw [if_neg hle] at h
      cases h
      simp [hnull]

/-- Inversion of a successful transformation: the binning succeeded and
the output is the row-wise enrichment zipped with the video types. -/
theorem clean_ok_inv {trend_queries : List String} {records : List RawRecord}
    {out : List EnrichedRecord}
    (h : clean_and_process_data trend_queries records = .ok out) :
    ∃ vts, cutVideoType (records.map fun r => iso_to_seconds r.duration_iso) = .ok vts
      ∧ vts.length = records.length
      ∧ out = List.zipWith (enrichRow trend_queries) records vts := by
  unfold clean_and_process_data at h
  cases hc : cutVideoType (records.map fun r => iso_to_seconds r.duration_iso) with
  | error e =>
    rw [hc] at h
    cases h
  | ok vts =>
    rw [hc] at h
    cases h
    exact ⟨vts, rfl, by simpa using cutVideoType_length hc, rfl⟩

/-- The rows of a successful transformation, indexwise. -/
theorem clean_ok_getElem {trend_queries : List String} {records : List RawRecord}
    {out : List EnrichedRecord}
    (h : clean_and_process_data trend_queries records = .ok out)
    (i : Nat) (hi : i < records.length) (ho : i < out.length) :
    ∃ vt, out[i] = enrichRow trend_queries records[i] vt := by
  obtain ⟨vts, hc, hlen, hout⟩ := clean_ok_inv h
  subst hout
  rw [List.getElem_zipWith]
  exact ⟨_, rfl⟩

/-- C3: in every transformed row the engagement rate is
`(like_count + comment_count) / view_count`, and 0 when `view_count`
is 0 — there the float division yields `nan` (zero numerator) or `inf`,
both of which the replacement step coerces to 0. -/
theorem engagement_rate_of_transform {trend_queries : List String}
    {records : List RawRecord} {out : List EnrichedRecord}
    (h : clean_and_process_data trend_queries records = .ok out)
    (i : Nat) (hi : i < records.length) (ho : i < out.length) :
    out[i].engagement_rate =
      (if records[i].view_count = 0 then 0
        else ((records[i].like_count : ℚ) + (records[i].comment_count : ℚ))
              / (records[i].view_count : ℚ))
    ∧ replaceInfNan FloatVal.inf = 0 ∧ replaceInfNan FloatVal.nan = 0 := by
  obtain ⟨vt, hrow⟩ := clean_ok_getElem h i hi ho
  refine ⟨?_, rfl, rfl⟩
  rw [hrow]
  show engagement_rate records[i].like_count records[i].comment_count records[i].view_count = _
  unfold engagement_rate floatDiv
  by_cases hv : records[i].view_count = 0
  · rw [if_pos hv]
    rw [if_pos (by rw [hv]; simp)]
    split <;> rfl
  · rw [if_neg hv]
    rw [if_neg (by simpa using hv)]
    rfl

theorem clean_eval_sample (qs : List String) (sq : String) :
    clean_and_process_data qs [RawRecord.mk "v" "Title" 10 1 0 (some "PT2M") sq "2021-01-01"]
      = .ok [enrichRow qs (RawRecord.mk "v" "Title" 10 1 0 (some "PT2M") sq "2021-01-01")
              (some VideoType.Longer_Video)] := by
  have h1 : iso_to_seconds (some "PT2M") = some 120 := by
    simp [iso_to_seconds, parseDuration, parseComp, parseNumber, takeDigits, digitsToNat,
      isWordChar]
    norm_num
  have h2 : cutVideoType [some (120 : ℚ)] = .ok [some VideoType.Longer_Video] := by
    unfold cutVideoType
    rw [show colMax [some (120 : ℚ)] = some 120 from rfl]
    dsimp only
    rw [if_neg (by norm_num)]
    simp only [List.map_cons, List.map_nil]
    norm_num
  unfold clean_and_process_data
  dsimp only [List.map_cons, List.map_nil]
  rw [h1, h2]
  rfl

theorem engagement_rate_of_transform_witness :
    clean_and_process_data []
        [RawRecord.mk "v" "Title" 10 1 0 (some "PT2M") "q" "2021-01-01"]
      = .ok [enrichRow [] (RawRecord.mk "v" "Title" 10 1 0 (some "PT2M") "q" "2021-01-01")
              (some VideoType.Longer_Video)]
    ∧ ([enrichRow [] (RawRecord.mk "v" "Title" 10 1 0 (some "PT2M") "q" "2021-01-01")
          (some VideoType.Longer_Video)])[0].engagement_rate = (1 : ℚ) / 10 := by
  have h := clean_eval_sample [] "q"
  refine ⟨h, ?_⟩
  have h2 := (engagement_rate_of_transform h 0 (by decide) (by decide)).1
  simpa using h2

/-- Lookup in the query-to-label mapping built from the query list:
present queries get their hyphenated label, absent ones fall to the
`fillna` default. -/
theorem trendLookup_eq (trend_queries : List String) (q : String) :
    trendLookup trend_queries q =
      if q ∈ trend_queries then q.replace " " "-" else "other" := by
  induction trend_queries with
  | nil => rfl
  | cons a qs ih =>
    unfold trendLookup TREND_MAPPING at ih ⊢
    simp only [List.map_cons, List.lookup]
    by_cases h : q = a
    · subst h
      simp
    · rw [show (q == a) = false from beq_eq_false_iff_ne.mpr h]
      dsimp only
      rw [ih]
      by_cases hm : q ∈ qs
      · rw [if_pos hm, if_pos (List.mem_cons_of_mem a hm)]
      · rw [if_neg hm, if_neg (by simp [List.mem_cons, h, hm])]

/-- C5: in every transformed row `Trend_ID` is a deterministic function
of `search_query`: its hyphenated label when the query is in the trend
list the mapping is built from, `"other"` otherwise; in particular
`"matcha"` resolves to `"other"` whenever it is unmapped. -/
theorem trend_id_of_transform {trend_queries : List String}
    {records : List RawRecord} {out : List EnrichedRecord}
    (h : clean_and_process_data trend_queries records = .ok out)
    (i : Nat) (hi : i < records.length) (ho : i < out.length) :
    out[i].Trend_ID =
      (if records[i].search_query ∈ trend_queries
        then records[i].search_query.replace " " "-" else "other")
    ∧ ∀ qs : List String, "matcha" ∉ qs → trendLookup qs "matcha" = "other" := by
  obtain ⟨vt, hrow⟩ := clean_ok_getElem h i hi ho
  constructor
  · rw [hrow]
    show trendLookup trend_queries records[i].search_query = _
    exact trendLookup_eq trend_queries records[i].search_query
  · intro qs hq
    rw [trendLookup_eq, if_neg hq]

theorem trend_id_of_transform_witness :
    clean_and_process_data ["feta pasta"]
        [RawRecord.mk "v" "Title" 10 1 0 (some "PT2M") "matcha" "2021-01-01"]
      = .ok [enrichRow ["feta pasta"]
              (RawRecord.mk "v" "Title" 10 1 0 (some "PT2M") "matcha" "2021-01-01")
              (some VideoType.Longer_Video)]
    ∧ ([enrichRow ["feta pasta"]
          (RawRecord.mk "v" "Title" 10 1 0 (some "PT2M") "matcha" "2021-01-01")
          (some VideoType.Longer_Video)])[0].Trend_ID = "other" := by
  have h := clean_eval_sample ["feta pasta"] "matcha"
  refine ⟨h, ?_⟩
  have h2 := (trend_id_of_transform h 0 (by decide) (by decide)).1
  simpa using h2

/-- C4 counterexample: on an input containing a malformed duration
(`"junk"`) next to a valid 30-second one, the transformation raises —
the parsed maximum is 30, so the `pd.cut` edges `[0, 60, 31]` are not
monotonically increasing and `pd.cut` raises a `ValueError`, refuting
the claim that the transformation never raises on such inputs. -/
theorem transformer_raises_on_short_max_duration :
    clean_and_process_data []
        [RawRecord.mk "v" "T" 1 0 0 (some "junk") "q" "d",
         RawRecord.mk "v" "T" 1 0 0 (some "PT30S") "q" "d"]
      = .error () := by
  have h1 : iso_to_seconds (some "PT30S") = some 30 := by
    simp [iso_to_seconds, parseDuration, parseComp, parseNumber, takeDigits, digitsToNat,
      isWordChar]
  unfold clean_and_process_data
  dsimp only [List.map_cons, List.map_nil]
  rw [show iso_to_seconds (some "junk") = none from rfl, h1]
  rw [show cutVideoType [none, some (30 : ℚ)] = .error () from ?_]
  unfold cutVideoType
  rw [show colMax [none, some (30 : ℚ)] = some 30 from rfl]
  dsimp only
  rw [if_pos (by norm_num)]

/-- C4 amended: every record whose duration is missing or malformed
gets `duration_seconds = null` and the null video-type category, and
`iso_to_seconds` itself never raises; the transformation as a whole,
however, succeeds only when some duration parses and the maximum
parsed duration exceeds 59 seconds.  Otherwise the video-type binning
raises: with a parsed maximum of at most 59 the edges `[0, 60, max+1]`
degenerate (see the counterexample), and with no parsed duration at
all the maximum is NaN, which every pandas version also rejects. -/
theorem transformer_nulls_on_unparseable_duration (trend_queries : List String)
    (records : List RawRecord) (m : ℚ)
    (hm : colMax (records.map fun r => iso_to_seconds r.duration_iso) = some m)
    (h59 : 59 < m) :
    ∃ out, clean_and_process_data trend_queries records = .ok out
      ∧ out.length = records.length
      ∧ ∀ (i : Nat) (hi : i < records.length) (ho : i < out.length),
          iso_to_seconds records[i].duration_iso = none →
            out[i].duration_seconds = none ∧ out[i].video_type = none := by
  have hcut : ∃ vts, cutVideoType (records.map fun r => iso_to_seconds r.duration_iso)
      = .ok vts := by
    unfold cutVideoType
    rw [hm]
    dsimp only
    rw [if_neg (by intro hc; linarith)]
    exact ⟨_, rfl⟩
  obtain ⟨vts, hvts⟩ := hcut
  have hlenv : vts.length = records.length := by
    have := cutVideoType_length hvts
    simpa using this
  refine ⟨List.zipWith (enrichRow trend_queries) records vts, ?_, ?_, ?_⟩
  · unfold clean_and_process_data
    rw [hvts]
  · simp [hlenv]
  · intro i hi ho hnone
    have hiv : i < vts.length := by omega
    have hrow : (List.zipWith (enrichRow trend_queries) records vts)[i]
        = enrichRow trend_queries records[i] vts[i] := List.getElem_zipWith
    rw [hrow]
    refine ⟨hnone, ?_⟩
    show vts[i] = none
    exact cutVideoType_null hvts i (by simpa using hi) hiv (by simp [hnone])

theorem transformer_nulls_witness :
    ∃ out, clean_and_process_data []
        [RawRecord.mk "v" "T" 1 0 0 (some "junk") "q" "d",
         RawRecord.mk "v" "T" 1 0 0 (some "PT2M") "q" "d"] = .ok out
      ∧ out.length = ([RawRecord.mk "v" "T" 1 0 0 (some "junk") "q" "d",
          RawRecord.mk "v" "T" 1 0 0 (some "PT2M") "q" "d"] : List RawRecord).length
      ∧ ∀ (i : Nat)
          (hi : i < ([RawRecord.mk "v" "T" 1 0 0 (some "junk") "q" "d",
            RawRecord.mk "v" "T" 1 0 0 (some "PT2M") "q" "d"] : List RawRecord).length)
          (ho : i < out.length),
          iso_to_seconds (([RawRecord.mk "v" "T" 1 0 0 (some "junk") "q" "d",
              RawRecord.mk "v" "T" 1 0 0 (some "PT2M") "q" "d"] :
              List RawRecord)[i]).duration_iso = none →
            out[i].duration_seconds = none ∧ out[i].video_type = none :=
  transformer_nulls_on_unparseable_duration []
    [RawRecord.mk "v" "T" 1 0 0 (some "junk") "q" "d",
     RawRecord.mk "v" "T" 1 0 0 (some "PT2M") "q" "d"] 120
    (by
      have h1 : iso_to_seconds (some "PT2M") = some 120 := by
        simp [iso_to_seconds, parseDuration, parseComp, parseNumber, takeDigits,
          digitsToNat, isWordChar]
        norm_num
      dsimp only [List.map_cons, List.map_nil]
      rw [show iso_to_seconds (some "junk") = none from rfl, h1]
      rfl)
    (by norm_num)

/-! ## Lemmas about the Aggregator -/

/-- The size of a `(Trend_ID, Date)` group is the number of occurrences
of its key among the record keys. -/
theorem length_filter_aggKey (records : List EnrichedRecord) (k : String × String) :
    (records.filter fun r => decide (aggKey r = k)).length
      = (records.map aggKey).countP fun x => decide (x = k) := by
  rw [List.countP_map, List.countP_eq_length_filter]
  rfl

/-- Summing the occurrence counts of the distinct elements gives back
the list length. -/
theorem sum_dedup_countP {α : Type} [DecidableEq α] (l : List α) :
    (l.dedup.map fun k => l.countP fun x => decide (x = k)).sum = l.length := by
  have hconv : (fun k => l.countP fun x => decide (x = k)) = fun k => l.count k := by
    funext k
    rw [List.count_eq_countP]
    have hfun : (fun x => decide (x = k)) = fun x => x == k := by
      funext x
      by_cases h : x = k <;> simp [h]
    rw [hfun]
  rw [hconv]
  have h1 : l.dedup.toFinset = l.toFinset := by
    ext a
    simp [List.mem_toFinset, List.mem_dedup]
  calc (l.dedup.map fun k => l.count k).sum
      = l.dedup.toFinset.sum fun k => l.count k :=
        (List.sum_toFinset _ (List.nodup_dedup l)).symm
    _ = l.toFinset.sum fun k => l.count k := by rw [h1]
    _ = l.length := List.sum_toFinset_count_eq_length l

/-- The keys of the aggregated rows are the distinct record keys. -/
theorem aggregate_map_key (records : List EnrichedRecord) :
    (aggregate_youtube_data records).map (fun a => (a.Trend_ID, a.Date))
      = (records.map aggKey).dedup := by
  unfold aggregate_youtube_data
  rw [List.map_map]
  have h : ((fun a : DailyAggregate => (a.Trend_ID, a.Date)) ∘ aggRow records)
      = fun k => k := by
    funext k
    cases k
    rfl
  rw [h, List.map_id']

/-- C6: the Aggregator emits exactly one row per distinct
`(trend_id, date)` pair present in the input — the output keys are
pairwise distinct and are exactly the keys occurring in the input —
and each row's `daily_video_count` is the number of input records of
its group. -/
theorem aggregate_one_row_per_group (records : List EnrichedRecord) :
    ((aggregate_youtube_data records).map (fun a => (a.Trend_ID, a.Date))).Nodup
    ∧ (∀ k : String × String,
        k ∈ (aggregate_youtube_data records).map (fun a => (a.Trend_ID, a.Date)) ↔
          k ∈ records.map aggKey)
    ∧ ∀ a ∈ aggregate_youtube_data records,
        a.daily_video_count =
          (records.filter fun r => decide (aggKey r = (a.Trend_ID, a.Date))).length := by
  refine ⟨?_, ?_, ?_⟩
  · rw [aggregate_map_key]
    exact List.nodup_dedup _
  · intro k
    rw [aggregate_map_key]
    exact List.mem_dedup
  · intro a ha
    unfold aggregate_youtube_data at ha
    obtain ⟨⟨k1, k2⟩, hk, rfl⟩ := List.mem_map.mp ha
    rfl

theorem aggregate_one_row_per_group_witness :
    ((aggregate_youtube_data
        [EnrichedRecord.mk "v1" "T" 1 0 0 none 0 none 1 "t" "2021-01-01" "q",
         EnrichedRecord.mk "v2" "T" 2 0 0 none 0 none 1 "t" "2021-01-01" "q"]).map
          (fun a => (a.Trend_ID, a.Date))).Nodup
    ∧ (aggRow
        [EnrichedRecord.mk "v1" "T" 1 0 0 none 0 none 1 "t" "2021-01-01" "q",
         EnrichedRecord.mk "v2" "T" 2 0 0 none 0 none 1 "t" "2021-01-01" "q"]
        ("t", "2021-01-01")).daily_video_count
        = ([EnrichedRecord.mk "v1" "T" 1 0 0 none 0 none 1 "t" "2021-01-01" "q",
            EnrichedRecord.mk "v2" "T" 2 0 0 none 0 none 1 "t" "2021-01-01" "q"].filter
            fun r => decide (aggKey r =
              ((aggRow
                [EnrichedRecord.mk "v1" "T" 1 0 0 none 0 none 1 "t" "2021-01-01" "q",
                 EnrichedRecord.mk "v2" "T" 2 0 0 none 0 none 1 "t" "2021-01-01" "q"]
                ("t", "2021-01-01")).Trend_ID,
               (aggRow
                [EnrichedRecord.mk "v1" "T" 1 0 0 none 0 none 1 "t" "2021-01-01" "q",
                 EnrichedRecord.mk "v2" "T" 2 0 0 none 0 none 1 "t" "2021-01-01" "q"]
                ("t", "2021-01-01")).Date))).length := by
  constructor
  · exact (aggregate_one_row_per_group _).1
  · exact (aggregate_one_row_per_group
      [EnrichedRecord.mk "v1" "T" 1 0 0 none 0 none 1 "t" "2021-01-01" "q",
       EnrichedRecord.mk "v2" "T" 2 0 0 none 0 none 1 "t" "2021-01-01" "q"]).2.2 _
      (List.mem_map.mpr ⟨("t", "2021-01-01"), by simp [aggKey], rfl⟩)

/-- C7: the group sizes partition the input — summing
`daily_video_count` over all aggregated rows gives the number of input
records. -/
theorem aggregate_counts_sum_to_length (records : List EnrichedRecord) :
    ((aggregate_youtube_data records).map DailyAggregate.daily_video_count).sum
      = records.length := by
  unfold aggregate_youtube_data
  rw [List.map_map]
  have h : (DailyAggregate.daily_video_count ∘ aggRow records)
      = fun k => (records.map aggKey).countP fun x => decide (x = k) := by
    funext k
    exact length_filter_aggKey records k
  rw [h, sum_dedup_countP]
  exact List.length_map records aggKey
